import Mathlib

/-!
Shallow embedding of the bcda-app worker/queue subsystem
(`src/bcdaworker/worker/worker.go`, `src/bcdaworker/queueing/manager/que.go`).

Modelling conventions:
* Go `time.Time` values are modelled as `Nat`, with `0` playing the role of the
  zero `time.Time` (`IsZero` becomes `= 0`).
* Go `float64` percentage arithmetic is modelled over `ℚ` (the values involved
  are small integers divided by small integers, where the float computation in
  the source is exact at every comparison the development evaluates).
* The JobStore / QueueStore (package `bcdaworker/repository` and the `que-go`
  library, which are not part of the analysed sources) are modelled from the
  spec: sections 4.6 and 4.7 of the specification give their contracts.
* Concurrency: the per-entry cancellation signal is modelled as a per-loop
  iteration observation (`BeneStep.cancelObserved`, mirroring the
  `ctx.Err() == context.Canceled` check at the top of each loop iteration in
  `writeBBDataToFile`), and external mutations racing with an entry are
  modelled as an explicit state transformer applied between validation and the
  worker's own state operations.
-/

namespace BCDA

/-- Job status values (models.JobStatus). -/
inductive JobStatus
  | Pending
  | InProgress
  | Cancelled
  | Failed
  | Completed
  deriving DecidableEq, Repr

/-- Parent export job (models.Job): identity, owner ACO, status, number of
queue entries it was split into. -/
structure Job where
  id : Nat
  acoID : String
  status : JobStatus
  jobCount : Nat
  deriving DecidableEq, Repr

/-- Completion record for one processed queue entry (models.JobKey). -/
structure JobKey where
  jobID : Nat
  fileName : String
  resourceType : String
  deriving DecidableEq, Repr

/-- Claims window passed to the upstream ExplanationOfBenefit call
(client.ClaimsWindow); bounds are times, `0` = Go zero time. -/
structure ClaimsWindow where
  lowerBound : Nat
  upperBound : Nat
  deriving DecidableEq, Repr

/-- Queue entry payload (models.JobEnqueueArgs), with exactly the fields the
worker reads. -/
structure JobEnqueueArgs where
  id : Nat
  acoID : String
  resourceType : String
  beneficiaryIDs : List String
  bbBasePath : String
  since : String
  transactionTime : Nat
  claimsWindow : ClaimsWindow
  serviceDate : Nat
  deriving DecidableEq, Repr

/-- ACO record; the worker only reads its CMSID (models.ACO). -/
structure ACO where
  uuid : String
  cmsID : String
  deriving DecidableEq, Repr

/-- Modelled from the spec: durable state of the JobStore (spec section 4.6);
the postgres repository implementation is not among the analysed sources. -/
structure RepoState where
  jobs : List Job
  jobKeys : List JobKey
  acos : List ACO
  completedJobCounts : List (Nat × Nat)
  deriving DecidableEq, Repr

/-- Modelled from the spec: `GetJobByID` (spec section 4.6); `none` plays the
role of repository.ErrJobNotFound. -/
def getJobByID (r : RepoState) (id : Nat) : Option Job :=
  r.jobs.find? (fun j => j.id == id)

/-- Modelled from the spec: `GetACOByUUID` (spec section 4.6). -/
def getACOByUUID (r : RepoState) (u : String) : Option ACO :=
  r.acos.find? (fun a => a.uuid == u)

/-- Modelled from the spec: unconditional `UpdateJobStatus` (spec section 4.6). -/
def updateJobStatus (r : RepoState) (id : Nat) (st : JobStatus) : RepoState :=
  { r with jobs := r.jobs.map (fun j => if j.id == id then { j with status := st } else j) }

/-- Modelled from the spec: conditional `UpdateJobStatusCheckStatus` (spec
sections 4.6 and 9, single-round compare-and-set). The boolean is `false`
exactly when the store reports repository.ErrJobNotUpdated (no row matched
the expected status). -/
def updateJobStatusCheckStatus (r : RepoState) (id : Nat)
    (expected newStatus : JobStatus) : RepoState × Bool :=
  match getJobByID r id with
  | some j => if j.status == expected then (updateJobStatus r id newStatus, true) else (r, false)
  | none => (r, false)

/-- Modelled from the spec: `CreateJobKey` (spec section 4.6). The contract
there states no uniqueness constraint, so the insert always succeeds. -/
def createJobKey (r : RepoState) (k : JobKey) : RepoState :=
  { r with jobKeys := r.jobKeys ++ [k] }

/-- Modelled from the spec: `GetJobKeyCount` (spec section 4.6). -/
def getJobKeyCount (r : RepoState) (id : Nat) : Nat :=
  (r.jobKeys.filter (fun k => k.jobID == id)).length

/-- Modelled from the spec: advisory `IncrementCompletedJobCount` (spec
section 4.6). -/
def incrementCompletedJobCount (r : RepoState) (id : Nat) : RepoState :=
  if (r.completedJobCounts.find? (fun p => p.1 == id)).isSome then
    { r with completedJobCounts :=
        r.completedJobCounts.map (fun p => if p.1 == id then (p.1, p.2 + 1) else p) }
  else
    { r with completedJobCounts := r.completedJobCounts ++ [(id, 1)] }

/-- Directory trees used by the worker: a directory exists for job `id` iff an
entry `(id, files)` is present. -/
abbrev DirTree : Type := List (Nat × List String)

/-- Contents of the directory for job `id`; `none` means the directory does
not exist (ioutil.ReadDir would fail). -/
def lookupDir (d : DirTree) (id : Nat) : Option (List String) :=
  (d.find? (fun p => p.1 == id)).map (fun p => p.2)

/-- createDir from worker.go: create the directory if missing, idempotent. -/
def ensureDir (d : DirTree) (id : Nat) : DirTree :=
  if (lookupDir d id).isSome then d else d ++ [(id, [])]

/-- Record a file created inside the directory for job `id`. -/
def addFile (d : DirTree) (id : Nat) (name : String) : DirTree :=
  d.map (fun p => if p.1 == id then (p.1, p.2 ++ [name]) else p)

/-- Record several files moved into the directory for job `id`. -/
def addFiles (d : DirTree) (id : Nat) (names : List String) : DirTree :=
  d.map (fun p => if p.1 == id then (p.1, p.2 ++ names) else p)

/-- os.Remove of the (emptied) directory for job `id`. -/
def removeDir (d : DirTree) (id : Nat) : DirTree :=
  d.filter (fun p => p.1 != id)

/-- Full mutable state seen by the worker: JobStore plus the staging and
payload directory roots (FHIR_STAGING_DIR / FHIR_PAYLOAD_DIR). -/
structure WorkerState where
  repo : RepoState
  staging : DirTree
  payload : DirTree
  deriving DecidableEq, Repr

/-- Environment configuration read by the worker. A value of `none` models an
unset or unparseable variable (strconv.Atoi / strconv.ParseInt failure). -/
structure Env where
  exportFailPct : Option Int
  maxJobNotFoundRetries : Option Int
  deriving DecidableEq, Repr

/-- getFailureThreshold from worker.go: parse EXPORT_FAIL_PCT, default 50 on
parse failure, clamp negatives to 0 and values above 100 to 100; the Go
function returns float64, modelled as ℚ. -/
def getFailureThreshold (env : Env) : ℚ :=
  match env.exportFailPct with
  | none => 50
  | some v => if v < 0 then 0 else if v > 100 then 100 else (v : ℚ)

/-- Modelled from the spec: utils.GetEnvInt (package bcda/utils is not among
the analysed sources): the parsed value of the variable, or the default when
unset or unparseable. -/
def getEnvInt (v : Option Int) (dflt : Int) : Int :=
  v.getD dflt

/-- Modelled from the spec: models.BlankFileName (package bcda/models is not
among the analysed sources); spec sections 4.2 and 8 give the sentinel name
"blank.ndjson". -/
def blankFileName : String := "blank.ndjson"

/-- Upstream client call selected by the resourceType switch in
writeBBDataToFile. -/
inductive ClientCall
  | getCoverage
  | getEOB (window : ClaimsWindow)
  | getPatient
  deriving DecidableEq, Repr

/-- Claims window actually passed to GetExplanationOfBenefit (worker.go lines
152-168): use the jobArgs window when either bound is non-zero, otherwise
fall back to a window whose upper bound is the legacy serviceDate (the lower
bound stays at the zero value). -/
def eobClaimsWindow (args : JobEnqueueArgs) : ClaimsWindow :=
  if args.claimsWindow.lowerBound != 0 || args.claimsWindow.upperBound != 0 then
    { lowerBound := args.claimsWindow.lowerBound, upperBound := args.claimsWindow.upperBound }
  else
    { lowerBound := 0, upperBound := args.serviceDate }

/-- The resourceType switch of writeBBDataToFile: which upstream call each
beneficiary will receive; `none` is the default branch ("unsupported resource
type"). -/
def resourceBundleCall (args : JobEnqueueArgs) : Option ClientCall :=
  if args.resourceType = "Coverage" then some .getCoverage
  else if args.resourceType = "ExplanationOfBenefit" then some (.getEOB (eobClaimsWindow args))
  else if args.resourceType = "Patient" then some .getPatient
  else none

/-- Observations for one iteration of the beneficiary loop:
`cancelObserved` is the value of the `ctx.Err() == context.Canceled` check at
the top of the iteration, `isErr` says whether the per-beneficiary body
(parse, beneficiary lookup, upstream fetch) returned an error, and `bytes`
is the number of NDJSON bytes the body appended when it did not error. -/
structure BeneStep where
  cancelObserved : Bool
  isErr : Bool
  bytes : Nat
  deriving DecidableEq, Repr

/-- Result of the beneficiary loop of writeBBDataToFile. -/
structure LoopOut where
  errorCount : Nat
  failed : Bool
  processed : Nat
  bytesWritten : Nat
  deriving DecidableEq, Repr

/-- The failure check performed after each beneficiary (worker.go lines
226-227): `failPct := (float64(errorCount) / totalBeneIDs) * 100` has reached
the threshold. -/
def failPctCond (threshold : ℚ) (total errorCount : Nat) : Prop :=
  threshold ≤ ((errorCount : ℚ) / (total : ℚ)) * 100

instance (threshold : ℚ) (total e : Nat) : Decidable (failPctCond threshold total e) := by
  unfold failPctCond
  infer_instance

/-- The beneficiary loop of writeBBDataToFile (worker.go lines 194-231):
check cancellation at the top of each iteration, run the body, count errors,
and after every beneficiary compare `(errorCount/total)*100` against the
failure threshold, breaking with `failed` when it is reached. -/
def runLoop (threshold : ℚ) (total : Nat) : Nat → Nat → Nat → List BeneStep → LoopOut
  | e, p, b, [] => ⟨e, false, p, b⟩
  | e, p, b, step :: rest =>
    if step.cancelObserved then ⟨e, true, p, b⟩
    else
      let e1 := if step.isErr then e + 1 else e
      let b1 := if step.isErr then b else b + step.bytes
      if failPctCond threshold total e1 then ⟨e1, true, p + 1, b1⟩
      else runLoop threshold total e1 (p + 1) b1 rest

/-- Outcome of writeBBDataToFile: either a file UUID with the byte size of
the data artifact, or one of the error values the function can return. -/
inductive WriteResult
  | ok (fileUUID : String) (size : Nat)
  | cancelledParent
  | thresholdExceeded
  | unsupportedResource
  deriving DecidableEq, Repr

/-- Result of writeBBDataToFile together with the number of OperationOutcome
lines appended to the `<uuid>-error.ndjson` artifact (one per counted
per-beneficiary error). -/
structure WriteOut where
  result : WriteResult
  errorLines : Nat
  deriving DecidableEq, Repr

/-- writeBBDataToFile (worker.go lines 140-250): dispatch on resourceType
(default branch errors), run the beneficiary loop, and on a failed loop
return the cancelled-parent error when the context is cancelled and the
threshold-exceeded error otherwise; on success return the file UUID and the
bytes written. `ctxCancelledAtEnd` is the value of the final
`ctx.Err() == context.Canceled` check. -/
def writeBBDataToFile (env : Env) (args : JobEnqueueArgs) (fileUUID : String)
    (trace : List BeneStep) (ctxCancelledAtEnd : Bool) : WriteOut :=
  match resourceBundleCall args with
  | none => ⟨.unsupportedResource, 0⟩
  | some _ =>
    let out := runLoop (getFailureThreshold env) args.beneficiaryIDs.length 0 0 0 trace
    if out.failed then
      if ctxCancelledAtEnd then ⟨.cancelledParent, out.errorCount⟩
      else ⟨.thresholdExceeded, out.errorCount⟩
    else ⟨.ok fileUUID out.bytesWritten, out.errorCount⟩

/-- The error values ProcessJob and its callees can surface. -/
inductive WError
  | acoNotFound
  | jobNotUpdated
  | cancelledParent
  | thresholdExceeded
  | unsupportedResource
  | jobNotFound
  | stagingReadErr
  deriving DecidableEq, Repr

/-- Error value corresponding to a failed writeBBDataToFile result. -/
def writeError : WriteResult → Option WError
  | .ok _ _ => none
  | .cancelledParent => some .cancelledParent
  | .thresholdExceeded => some .thresholdExceeded
  | .unsupportedResource => some .unsupportedResource

/-- checkJobCompleteAndCleanup (worker.go lines 339-391): read the parent;
terminal statuses short-circuit as done; otherwise if the JobKey count has
reached jobCount, move every staged file to the payload directory, remove the
staging directory and mark the job Completed. -/
def checkJobCompleteAndCleanup (s : WorkerState) (jobID : Nat) :
    (Option WError × Bool) × WorkerState :=
  match getJobByID s.repo jobID with
  | none => ((some .jobNotFound, false), s)
  | some j =>
    match j.status with
    | .Completed => ((none, true), s)
    | .Cancelled => ((none, true), s)
    | .Failed => ((none, true), s)
    | _ =>
      let completedCount := getJobKeyCount s.repo jobID
      if completedCount ≥ j.jobCount then
        match lookupDir s.staging j.id with
        | none => ((some .stagingReadErr, false), s)
        | some files =>
          let payload1 := addFiles s.payload j.id files
          let staging1 := removeDir s.staging j.id
          let repo1 := updateJobStatus s.repo j.id .Completed
          ((none, true), ⟨repo1, staging1, payload1⟩)
      else ((none, false), s)

/-- Tail of ProcessJob after the JobKey branch (worker.go lines 125-137):
run the completion check, surfacing its error; then attempt the advisory
completed-count increment, whose failure is only logged. -/
def finishProcessJob (s : WorkerState) (job : Job) : WorkerState × Option WError :=
  match checkJobCompleteAndCleanup s job.id with
  | ((some e, _), s1) => (s1, some e)
  | ((none, _), s1) =>
    ({ s1 with repo := incrementCompletedJobCount s1.repo job.id }, none)

/-- ProcessJob (worker.go lines 62-138). Steps: look up the ACO; attempt the
conditional Pending to InProgress promotion (rejection is only logged);
ensure the staging and payload directories; run writeBBDataToFile (the
`fileUUID` models the uuid.New() draw, `trace` and `ctxCancelledAtEnd` the
interaction with the upstream client and the cancellation signal). On a
fetch failure the `err` variable is reassigned to the result of the
conditional InProgress to Failed update: a rejected update (parent already
terminal) is returned to the caller, while a successful update leaves `err`
nil and processing continues; on success a JobKey is inserted, with the
sentinel blank name when zero bytes were written. Finally the completion
check and advisory counter run. -/
def processJob (env : Env) (s : WorkerState) (job : Job) (args : JobEnqueueArgs)
    (fileUUID : String) (trace : List BeneStep) (ctxCancelledAtEnd : Bool) :
    WorkerState × Option WError :=
  match getACOByUUID s.repo job.acoID with
  | none => (s, some .acoNotFound)
  | some _aco =>
    let repo1 := (updateJobStatusCheckStatus s.repo job.id .Pending .InProgress).1
    let staging1 :=
      if (resourceBundleCall args).isSome then
        addFile (ensureDir s.staging args.id) args.id (fileUUID ++ ".ndjson")
      else ensureDir s.staging args.id
    let payload1 := ensureDir s.payload args.id
    let w := writeBBDataToFile env args fileUUID trace ctxCancelledAtEnd
    match w.result with
    | .ok u size =>
      let fileName := if size == 0 then blankFileName else u ++ ".ndjson"
      let repo2 := createJobKey repo1 ⟨job.id, fileName, args.resourceType⟩
      finishProcessJob ⟨repo2, staging1, payload1⟩ job
    | _ =>
      let upd := updateJobStatusCheckStatus repo1 job.id .InProgress .Failed
      if upd.2 then
        finishProcessJob ⟨upd.1, staging1, payload1⟩ job
      else
        (⟨upd.1, staging1, payload1⟩, some .jobNotUpdated)

/-- Outcome of ValidateJob (worker.go lines 43-60). -/
inductive ValidateResult
  | noBasePath
  | parentNotFound
  | parentCancelled
  | valid (j : Job)
  deriving DecidableEq, Repr

/-- ValidateJob (worker.go lines 43-60): reject an empty BBBasePath, then
look up the parent job, reject a missing parent and a Cancelled parent. -/
def validateJob (r : RepoState) (args : JobEnqueueArgs) : ValidateResult :=
  if args.bbBasePath.length == 0 then .noBasePath
  else
    match getJobByID r args.id with
    | none => .parentNotFound
    | some j => if j.status == .Cancelled then .parentCancelled else .valid j

/-- A queue entry as seen by que-go: decoded args (`none` = the payload does
not deserialize) and the retry bookkeeping errorCount. -/
structure QueEntry where
  args : Option JobEnqueueArgs
  errorCount : Int
  deriving DecidableEq, Repr

/-- Modelled from the spec: the que-go acknowledgement protocol (spec
sections 4.2 and 4.7): a nil return acknowledges and removes the entry, a
non-nil return reschedules it with backoff. -/
inductive QueOutcome
  | ack
  | retry
  deriving DecidableEq, Repr

/-- processJob of the queue manager (que.go lines 89-156): ack undecodable
payloads; ack entries whose parent is cancelled or whose args have no base
path; for a missing parent, ack once the entry's errorCount has reached the
configured budget (BCDA_WORKER_MAX_JOB_NOT_FOUND_RETRIES, default 3) and
retry under it; otherwise run worker.ProcessJob, retrying on its error and
acking on success. The `ext` transformer models external state mutations
(such as a cancellation of the parent) that land between validation and the
worker's own state operations; the remaining arguments are passed through to
`processJob`. -/
def queProcessJob (env : Env) (s : WorkerState) (ext : WorkerState → WorkerState)
    (entry : QueEntry) (fileUUID : String) (trace : List BeneStep)
    (ctxCancelledAtEnd : Bool) : WorkerState × QueOutcome :=
  match entry.args with
  | none => (s, .ack)
  | some args =>
    match validateJob s.repo args with
    | .parentCancelled => (s, .ack)
    | .noBasePath => (s, .ack)
    | .parentNotFound =>
      if entry.errorCount ≥ getEnvInt env.maxJobNotFoundRetries 3 then (s, .ack)
      else (s, .retry)
    | .valid exportJob =>
      match processJob env (ext s) exportJob args fileUUID trace ctxCancelledAtEnd with
      | (s1, none) => (s1, .ack)
      | (s1, some _) => (s1, .retry)

/-- Number of beneficiaries in a trace segment whose body errored. -/
def countErrs (l : List BeneStep) : Nat :=
  (l.filter (fun st => st.isErr)).length

/-- Spec-side threshold: EXPORT_FAIL_PCT clamped to the interval [0,100],
defaulting to 50 when unset or unparseable (spec sections 4.3 and 6). -/
def specFailureThreshold (env : Env) : ℚ :=
  match env.exportFailPct with
  | none => 50
  | some v => max 0 (min 100 (v : ℚ))

/-- Scenario for claim C1: a parent job observed InProgress at validation. -/
def C1job : Job := ⟨1, "aco-1", .InProgress, 1⟩

/-- Scenario for claim C1: the owning ACO. -/
def C1aco : ACO := ⟨"aco-1", "A0001"⟩

/-- Scenario for claim C1: queue-entry args with one beneficiary. -/
def C1args : JobEnqueueArgs := ⟨1, "A0001", "Patient", ["42"], "/v1/fhir", "", 0, ⟨0, 0⟩, 0⟩

/-- Scenario for claim C1: initial state. -/
def C1state : WorkerState := ⟨⟨[C1job], [], [C1aco], []⟩, [], []⟩

/-- Scenario for claim C1: the external cancellation that lands while the
entry is in flight (parent set to Cancelled, which the monitor then
observes). -/
def C1cancel : WorkerState → WorkerState :=
  fun s => ⟨updateJobStatus s.repo 1 .Cancelled, s.staging, s.payload⟩

/-- Scenario for claim C1: the loop observes the fired cancellation signal at
the top of its first iteration. -/
def C1trace : List BeneStep := [⟨true, false, 0⟩]

/-- Scenario for claim C2: a parent job with jobCount 1, about to be
processed. -/
def C2job : Job := ⟨1, "aco-2", .Pending, 1⟩

/-- Scenario for claim C2: initial state. -/
def C2state : WorkerState := ⟨⟨[C2job], [], [⟨"aco-2", "A0002"⟩], []⟩, [], []⟩

/-- Scenario for claim C2: args with an empty beneficiary list (blank
output). -/
def C2args : JobEnqueueArgs := ⟨1, "A0002", "Patient", [], "/v1/fhir", "", 0, ⟨0, 0⟩, 0⟩

/-- Scenario for claim C2: the queue entry. -/
def C2entry : QueEntry := ⟨some C2args, 0⟩

/-- Scenario for claim C2: first delivery of the entry (crashing after its
state effects but before the acknowledgement is recorded). -/
def C2run1 : WorkerState × QueOutcome :=
  queProcessJob ⟨some 50, none⟩ C2state id C2entry "u1" [] false

/-- Scenario for claim C2: re-delivery of the same entry, with a fresh
artifact UUID drawn by uuid.New(). -/
def C2run2 : WorkerState × QueOutcome :=
  queProcessJob ⟨some 50, none⟩ C2run1.1 id C2entry "u2" [] false

/-- Scenario for claim C3: a parent job already Cancelled when the failure
branch runs. -/
def C3job : Job := ⟨1, "aco-3", .Cancelled, 1⟩

/-- Scenario for claim C3: initial state. -/
def C3state : WorkerState := ⟨⟨[C3job], [], [⟨"aco-3", "A0003"⟩], []⟩, [], []⟩

/-- Scenario for claim C3: args with a single beneficiary. -/
def C3args : JobEnqueueArgs := ⟨1, "A0003", "Patient", ["7"], "/v1/fhir", "", 0, ⟨0, 0⟩, 0⟩

/-- Scenario for claim C3: the single beneficiary fetch errors, so the
threshold (50) is reached and the fetch step fails. -/
def C3trace : List BeneStep := [⟨false, true, 0⟩]

/-- Scenario for claim C4: ten beneficiaries. -/
def C4args : JobEnqueueArgs :=
  ⟨1, "A0004", "Patient", ["1", "2", "3", "4", "5", "6", "7", "8", "9", "10"],
    "/v1/fhir", "", 0, ⟨0, 0⟩, 0⟩

/-- Scenario for claim C4: the upstream errors on the first six
beneficiaries and would succeed on the last four. -/
def C4trace : List BeneStep :=
  List.replicate 6 ⟨false, true, 0⟩ ++ List.replicate 4 ⟨false, false, 3⟩

/-- Scenario for claim C4: the parent job. -/
def C4job : Job := ⟨1, "aco-4", .Pending, 1⟩

/-- Scenario for claim C4: initial state. -/
def C4state : WorkerState := ⟨⟨[C4job], [], [⟨"aco-4", "A0004"⟩], []⟩, [], []⟩

/-- Scenario for claim C5 (witness): a parent job already Completed. -/
def C5job : Job := ⟨1, "aco-5", .Completed, 2⟩

/-- Scenario for claim C5 (witness): state holding the completed job, a
JobKey and a staged file. -/
def C5state : WorkerState :=
  ⟨⟨[C5job], [⟨1, "f.ndjson", "Patient"⟩], [], []⟩, [(1, ["g.ndjson"])], [(1, [])]⟩

/-- Scenario for claim C6 (witness): ExplanationOfBenefit args with a
populated claims window lower bound. -/
def C6args : JobEnqueueArgs :=
  ⟨3, "A0006", "ExplanationOfBenefit", ["5"], "/v1/fhir", "", 0, ⟨5, 0⟩, 9⟩

/-- Scenario for claim C6 (witness): the same args with both claims-window
bounds at the zero value, exercising the serviceDate fallback. -/
def C6argsOld : JobEnqueueArgs :=
  ⟨3, "A0006", "ExplanationOfBenefit", ["5"], "/v1/fhir", "", 0, ⟨0, 0⟩, 9⟩

/-- Scenario for claim C9 (witness): blank-output args (no beneficiaries). -/
def C9args : JobEnqueueArgs := ⟨1, "A0009", "Patient", [], "/v1/fhir", "", 0, ⟨0, 0⟩, 0⟩

/-- The spec's formula `failPct = 100 * failedCount / totalBeneficiaries`
compared against the threshold agrees with the code's
`(float64(errorCount) / totalBeneIDs) * 100` comparison. -/
theorem failPctCond_spec (θ : ℚ) (total e : Nat) :
    failPctCond θ total e ↔ 100 * (e : ℚ) / (total : ℚ) ≥ θ := by
  unfold failPctCond
  rw [ge_iff_le, mul_comm, mul_div_assoc]

theorem getFailureThreshold_none (env : Env) (h : env.exportFailPct = none) :
    getFailureThreshold env = 50 := by
  unfold getFailureThreshold
  rw [h]

theorem getFailureThreshold_some (env : Env) (v : Int) (hv : env.exportFailPct = some v) :
    getFailureThreshold env = if v < 0 then 0 else if v > 100 then 100 else (v : ℚ) := by
  unfold getFailureThreshold
  rw [hv]

theorem getFailureThreshold_eq_spec (env : Env) :
    getFailureThreshold env = specFailureThreshold env := by
  rcases env with ⟨fp, mr⟩
  cases fp with
  | none => rfl
  | some v =>
    rw [getFailureThreshold_some ⟨some v, mr⟩ v rfl]
    show _ = max 0 (min 100 (v : ℚ))
    by_cases h1 : v < 0
    · have hq : (v : ℚ) ≤ 0 := by exact_mod_cast h1.le
      rw [if_pos h1, min_eq_right (hq.trans (by norm_num)), max_eq_left hq]
    · by_cases h2 : v > 100
      · have hq : (100 : ℚ) ≤ (v : ℚ) := by exact_mod_cast h2.le
        rw [if_neg h1, if_pos h2, min_eq_left hq, max_eq_right (by norm_num)]
      · have hq0 : (0 : ℚ) ≤ (v : ℚ) := by exact_mod_cast not_lt.mp h1
        have hq100 : (v : ℚ) ≤ 100 := by exact_mod_cast not_lt.mp h2
        rw [if_neg h1, if_neg h2, min_eq_right hq100, max_eq_right hq0]

theorem countErrs_nil : countErrs [] = 0 := rfl

theorem countErrs_cons (st : BeneStep) (l : List BeneStep) :
    countErrs (st :: l) = (if st.isErr then 1 else 0) + countErrs l := by
  by_cases h : st.isErr <;> simp [countErrs, List.filter_cons, h, Nat.add_comm]

theorem errAcc_take_succ (e : Nat) (st : BeneStep) (l : List BeneStep) (k : Nat) :
    e + countErrs ((st :: l).take (k + 1)) =
      (if st.isErr then e + 1 else e) + countErrs (l.take k) := by
  by_cases h : st.isErr
  · simp [List.take_succ_cons, countErrs_cons, h]
    omega
  · simp [List.take_succ_cons, countErrs_cons, h]

theorem runLoop_nil (θ : ℚ) (total e p b : Nat) :
    runLoop θ total e p b [] = ⟨e, false, p, b⟩ := rfl

theorem runLoop_cons_cancel (θ : ℚ) (total e p b : Nat) (step : BeneStep)
    (rest : List BeneStep) (hc : step.cancelObserved = true) :
    runLoop θ total e p b (step :: rest) = ⟨e, true, p, b⟩ := by
  simp [runLoop, hc]

theorem runLoop_cons_break (θ : ℚ) (total e p b : Nat) (step : BeneStep)
    (rest : List BeneStep) (hc : step.cancelObserved = false)
    (hth : failPctCond θ total (if step.isErr then e + 1 else e)) :
    runLoop θ total e p b (step :: rest) =
      ⟨if step.isErr then e + 1 else e, true, p + 1,
        if step.isErr then b else b + step.bytes⟩ := by
  simp only [runLoop, hc, Bool.false_eq_true, if_false, if_pos hth]

theorem runLoop_cons_go (θ : ℚ) (total e p b : Nat) (step : BeneStep)
    (rest : List BeneStep) (hc : step.cancelObserved = false)
    (hth : ¬ failPctCond θ total (if step.isErr then e + 1 else e)) :
    runLoop θ total e p b (step :: rest) =
      runLoop θ total (if step.isErr then e + 1 else e) (p + 1)
        (if step.isErr then b else b + step.bytes) rest := by
  simp only [runLoop, hc, Bool.false_eq_true, if_false, if_neg hth]

/-- Once a loop iteration observes the cancellation signal (or the threshold
trips first), the loop ends with the entry marked failed. -/
theorem runLoop_cancel_failed (θ : ℚ) (total : Nat) :
    ∀ (trace : List BeneStep) (e p b : Nat),
      (∃ st ∈ trace, st.cancelObserved = true) →
      (runLoop θ total e p b trace).failed = true := by
  intro trace
  induction trace with
  | nil => intro e p b h; simp at h
  | cons step rest ih =>
    intro e p b h
    by_cases hc : step.cancelObserved
    · rw [runLoop_cons_cancel θ total e p b step rest hc]
    · have hc' : step.cancelObserved = false := by simpa using hc
      have hrest : ∃ st ∈ rest, st.cancelObserved = true := by
        rcases h with ⟨st, hmem, hobs⟩
        rcases List.mem_cons.mp hmem with hst | hm
        · exact absurd (hst ▸ hobs) hc
        · exact ⟨st, hm, hobs⟩
      by_cases hth : failPctCond θ total (if step.isErr then e + 1 else e)
      · rw [runLoop_cons_break θ total e p b step rest hc' hth]
      · rw [runLoop_cons_go θ total e p b step rest hc' hth]
        exact ih _ _ _ hrest

/-- In a cancellation-free run that does not end failed, no prefix of the
trace ever reaches the failure threshold. -/
theorem runLoop_not_failed_no_cross (θ : ℚ) (total : Nat) :
    ∀ (trace : List BeneStep) (e p b : Nat),
      (∀ st ∈ trace, st.cancelObserved = false) →
      (runLoop θ total e p b trace).failed = false →
      ∀ k, 0 < k → k ≤ trace.length →
        ¬ failPctCond θ total (e + countErrs (trace.take k)) := by
  intro trace
  induction trace with
  | nil => intro e p b _ _ k hk hk'; simp at hk'; omega
  | cons step rest ih =>
    intro e p b hnc hfail k hk hk'
    have hc : step.cancelObserved = false := hnc step (List.mem_cons_self _ _)
    by_cases hth : failPctCond θ total (if step.isErr then e + 1 else e)
    · exfalso
      rw [runLoop_cons_break θ total e p b step rest hc hth] at hfail
      simp at hfail
    · rw [runLoop_cons_go θ total e p b step rest hc hth] at hfail
      rcases Nat.exists_eq_add_of_lt hk with ⟨k1, hk1⟩
      rw [Nat.zero_add] at hk1
      subst hk1
      rw [errAcc_take_succ]
      rcases Nat.eq_zero_or_pos k1 with h0 | hpos
      · subst h0
        simpa [countErrs_nil] using hth
      · have hlen : k1 ≤ rest.length := by simpa using hk'
        exact ih (if step.isErr then e + 1 else e) (p + 1)
          (if step.isErr then b else b + step.bytes)
          (fun st hst => hnc st (List.mem_cons_of_mem _ hst)) hfail k1 hpos hlen

/-- In a cancellation-free run that ends failed, the loop exited at the
first beneficiary whose running failure percentage reached the threshold:
the number of processed beneficiaries is exactly that index, the threshold
holds there, and at no earlier positive index. -/
theorem runLoop_exit_first (θ : ℚ) (total : Nat) :
    ∀ (trace : List BeneStep) (e p b : Nat),
      (∀ st ∈ trace, st.cancelObserved = false) →
      (runLoop θ total e p b trace).failed = true →
      ∃ m, 0 < m ∧ m ≤ trace.length ∧
        (runLoop θ total e p b trace).processed = p + m ∧
        (runLoop θ total e p b trace).errorCount = e + countErrs (trace.take m) ∧
        failPctCond θ total (e + countErrs (trace.take m)) ∧
        ∀ j, 0 < j → j < m →
          ¬ failPctCond θ total (e + countErrs (trace.take j)) := by
  intro trace
  induction trace with
  | nil => intro e p b _ hfail; simp [runLoop_nil] at hfail
  | cons step rest ih =>
    intro e p b hnc hfail
    have hc : step.cancelObserved = false := hnc step (List.mem_cons_self _ _)
    by_cases hth : failPctCond θ total (if step.isErr then e + 1 else e)
    · refine ⟨1, Nat.one_pos, by simp, ?_, ?_, ?_, ?_⟩
      · rw [runLoop_cons_break θ total e p b step rest hc hth]
      · rw [runLoop_cons_break θ total e p b step rest hc hth,
          show (1 : Nat) = 0 + 1 by rfl, errAcc_take_succ]
        simp [countErrs_nil]
      · rw [show (1 : Nat) = 0 + 1 by rfl, errAcc_take_succ]
        simpa [countErrs_nil] using hth
      · intro j hj hj'; omega
    · rw [runLoop_cons_go θ total e p b step rest hc hth] at hfail ⊢
      rcases ih (if step.isErr then e + 1 else e) (p + 1)
          (if step.isErr then b else b + step.bytes)
          (fun st hst => hnc st (List.mem_cons_of_mem _ hst)) hfail with
        ⟨m', hm'pos, hm'len, hproc, herr, hcross, hmin⟩
      refine ⟨m' + 1, Nat.succ_pos _, by simpa using Nat.succ_le_succ hm'len, ?_, ?_, ?_, ?_⟩
      · rw [hproc]; omega
      · rw [herr, errAcc_take_succ]
      · rw [errAcc_take_succ]; exact hcross
      · intro j hj hj'
        rcases Nat.exists_eq_add_of_lt hj with ⟨j1, hj1⟩
        rw [Nat.zero_add] at hj1
        subst hj1
        rw [errAcc_take_succ]
        rcases Nat.eq_zero_or_pos j1 with h0 | hpos
        · subst h0
          simpa [countErrs_nil] using hth
        · exact hmin j1 hpos (by omega)

theorem updateJobStatus_jobKeys (r : RepoState) (id : Nat) (st : JobStatus) :
    (updateJobStatus r id st).jobKeys = r.jobKeys := rfl

theorem updateJobStatusCheckStatus_jobKeys (r : RepoState) (id : Nat)
    (expected newStatus : JobStatus) :
    ((updateJobStatusCheckStatus r id expected newStatus).1).jobKeys = r.jobKeys := by
  unfold updateJobStatusCheckStatus
  cases h : getJobByID r id with
  | none => rfl
  | some j =>
    by_cases hs : j.status == expected
    · simp [hs, updateJobStatus_jobKeys]
    · simp [hs]

/-- A conditional status update whose expected status does not match the
stored job is rejected (repository.ErrJobNotUpdated) and leaves the store
unchanged. -/
theorem updateJobStatusCheckStatus_ne (r : RepoState) (id : Nat)
    (expected newStatus : JobStatus) (j' : Job)
    (hj : getJobByID r id = some j') (hst : j'.status ≠ expected) :
    updateJobStatusCheckStatus r id expected newStatus = (r, false) := by
  unfold updateJobStatusCheckStatus
  rw [hj]
  simp [hst]

theorem incrementCompletedJobCount_jobKeys (r : RepoState) (id : Nat) :
    (incrementCompletedJobCount r id).jobKeys = r.jobKeys := by
  unfold incrementCompletedJobCount
  split <;> rfl

theorem checkJobCompleteAndCleanup_jobKeys (s : WorkerState) (id : Nat) :
    ((checkJobCompleteAndCleanup s id).2).repo.jobKeys = s.repo.jobKeys := by
  unfold checkJobCompleteAndCleanup
  split
  · rfl
  · split
    · rfl
    · rfl
    · rfl
    · split
      · dsimp only
        split <;> rfl
      · dsimp only
        split <;> rfl

theorem finishProcessJob_jobKeys (s : WorkerState) (job : Job) :
    ((finishProcessJob s job).1).repo.jobKeys = s.repo.jobKeys := by
  have hrec := checkJobCompleteAndCleanup_jobKeys s job.id
  unfold finishProcessJob
  rcases h : checkJobCompleteAndCleanup s job.id with ⟨⟨res, b⟩, s1⟩
  rw [h] at hrec
  cases res with
  | none => simpa [incrementCompletedJobCount_jobKeys] using hrec
  | some e => simpa using hrec

/-- When the fetch-and-stream step fails (for any of its three error
returns), processing with a parent already in the Cancelled status surfaces
either the missing-ACO error or the conditional-update rejection, and
inserts no JobKey. -/
theorem processJob_cancelled_parent (env : Env) (s : WorkerState) (job : Job)
    (args : JobEnqueueArgs) (u : String) (trace : List BeneStep) (ctxEnd : Bool)
    (j' : Job) (hj : getJobByID s.repo job.id = some j')
    (hst : j'.status = .Cancelled)
    (hcan : ∃ st ∈ trace, st.cancelObserved = true) :
    ((processJob env s job args u trace ctxEnd).2 = some .acoNotFound ∨
     (processJob env s job args u trace ctxEnd).2 = some .jobNotUpdated) ∧
    (processJob env s job args u trace ctxEnd).1.repo.jobKeys = s.repo.jobKeys := by
  unfold processJob
  cases hA : getACOByUUID s.repo job.acoID with
  | none => exact ⟨Or.inl rfl, rfl⟩
  | some a =>
    have hcas1 : updateJobStatusCheckStatus s.repo job.id .Pending .InProgress
        = (s.repo, false) :=
      updateJobStatusCheckStatus_ne s.repo job.id .Pending .InProgress j' hj
        (by rw [hst]; exact fun h => JobStatus.noConfusion h)
    have hcas2 : updateJobStatusCheckStatus s.repo job.id .InProgress .Failed
        = (s.repo, false) :=
      updateJobStatusCheckStatus_ne s.repo job.id .InProgress .Failed j' hj
        (by rw [hst]; exact fun h => JobStatus.noConfusion h)
    have hwf : (writeBBDataToFile env args u trace ctxEnd).result = .cancelledParent ∨
        (writeBBDataToFile env args u trace ctxEnd).result = .thresholdExceeded ∨
        (writeBBDataToFile env args u trace ctxEnd).result = .unsupportedResource := by
      unfold writeBBDataToFile
      cases hres : resourceBundleCall args with
      | none => right; right; rfl
      | some c =>
        have hfail := runLoop_cancel_failed (getFailureThreshold env)
          args.beneficiaryIDs.length trace 0 0 0 hcan
        cases ctxEnd with
        | false => right; left; simp [hfail]
        | true => left; simp [hfail]
    rcases hwf with hwf | hwf | hwf <;>
      (rw [hcas1]
       simp only [hwf, hcas2]
       exact ⟨Or.inr rfl, rfl⟩)

/-- A write failure combined with a parent whose status is terminal
(Cancelled, Completed or Failed) makes both conditional updates fail, so
ProcessJob returns the conditional-update rejection error. -/
theorem processJob_reject_returns_jobNotUpdated (env : Env) (s : WorkerState) (job : Job)
    (args : JobEnqueueArgs) (u : String) (trace : List BeneStep) (ctxEnd : Bool)
    (aco : ACO) (j' : Job)
    (haco : getACOByUUID s.repo job.acoID = some aco)
    (hj : getJobByID s.repo job.id = some j')
    (hterm : j'.status = .Cancelled ∨ j'.status = .Completed ∨ j'.status = .Failed)
    (hwf : writeError (writeBBDataToFile env args u trace ctxEnd).result ≠ none) :
    (processJob env s job args u trace ctxEnd).2 = some .jobNotUpdated := by
  have hne1 : j'.status ≠ .Pending := by
    rcases hterm with h | h | h <;> rw [h] <;> exact fun hh => JobStatus.noConfusion hh
  have hne2 : j'.status ≠ .InProgress := by
    rcases hterm with h | h | h <;> rw [h] <;> exact fun hh => JobStatus.noConfusion hh
  have hcas1 := updateJobStatusCheckStatus_ne s.repo job.id .Pending .InProgress j' hj hne1
  have hcas2 := updateJobStatusCheckStatus_ne s.repo job.id .InProgress .Failed j' hj hne2
  unfold processJob
  rw [haco]
  cases hr : (writeBBDataToFile env args u trace ctxEnd).result with
  | ok u1 size => rw [hr] at hwf; exact absurd rfl hwf
  | cancelledParent => simp [hr, hcas1, hcas2]
  | thresholdExceeded => simp [hr, hcas1, hcas2]
  | unsupportedResource => simp [hr, hcas1, hcas2]

/-- C5: re-running the completion check on a parent job whose status is
already Completed is a no-op: it reports done with no status update, no
rename and no staging-directory removal; likewise a Cancelled or Failed
parent reports done without any mutation. -/
theorem C5_completion_check_noop (s : WorkerState) (jobID : Nat) (j : Job)
    (hj : getJobByID s.repo jobID = some j)
    (hst : j.status = .Completed ∨ j.status = .Cancelled ∨ j.status = .Failed) :
    checkJobCompleteAndCleanup s jobID = ((none, true), s) := by
  rcases hst with h | h | h <;> simp [checkJobCompleteAndCleanup, hj, h]

theorem C5_completion_check_noop_witness :
    checkJobCompleteAndCleanup C5state 1 = ((none, true), C5state) :=
  C5_completion_check_noop C5state 1 C5job rfl (Or.inl rfl)

/-- C6: for resourceType ExplanationOfBenefit, the upstream call receives
the jobArgs claims window whenever at least one bound is set; otherwise it
receives the backwards-compatibility fallback whose upper bound is the
legacy serviceDate, and the fallback never sets the lower bound. -/
theorem C6_eob_claims_window (args : JobEnqueueArgs)
    (hr : args.resourceType = "ExplanationOfBenefit") :
    (¬ (args.claimsWindow.lowerBound = 0 ∧ args.claimsWindow.upperBound = 0) →
      resourceBundleCall args = some (.getEOB args.claimsWindow)) ∧
    (args.claimsWindow.lowerBound = 0 ∧ args.claimsWindow.upperBound = 0 →
      resourceBundleCall args = some (.getEOB ⟨0, args.serviceDate⟩) ∧
      (eobClaimsWindow args).lowerBound = 0) := by
  constructor
  · intro h
    rcases not_and_or.mp h with h1 | h1 <;>
      simp [resourceBundleCall, hr, eobClaimsWindow, h1]
  · rintro ⟨h1, h2⟩
    simp [resourceBundleCall, hr, eobClaimsWindow, h1, h2]

theorem C6_eob_claims_window_witness :
    resourceBundleCall C6args = some (.getEOB ⟨5, 0⟩) ∧
    resourceBundleCall C6argsOld = some (.getEOB ⟨0, 9⟩) ∧
    (eobClaimsWindow C6argsOld).lowerBound = 0 := by
  refine ⟨?_, ?_, ?_⟩
  · exact (C6_eob_claims_window C6args rfl).1 (by decide)
  · exact ((C6_eob_claims_window C6argsOld rfl).2 (by decide)).1
  · exact ((C6_eob_claims_window C6argsOld rfl).2 (by decide)).2

/-- C7: the threshold read from EXPORT_FAIL_PCT equals the spec's clamp to
the interval [0,100] with default 50, and the beneficiary loop (in a
cancellation-free run) marks the entry failed exactly when some prefix of
the beneficiaries reaches `failPct = 100 * errorCount / total ≥ threshold`,
exiting at the first such beneficiary. -/
theorem C7_failure_threshold_loop (env : Env) (total : Nat) (trace : List BeneStep)
    (hnc : ∀ st ∈ trace, st.cancelObserved = false) :
    getFailureThreshold env = specFailureThreshold env ∧
    (env.exportFailPct = none → getFailureThreshold env = 50) ∧
    ((runLoop (getFailureThreshold env) total 0 0 0 trace).failed = true ↔
      ∃ k, 0 < k ∧ k ≤ trace.length ∧
        100 * (countErrs (trace.take k) : ℚ) / (total : ℚ) ≥ getFailureThreshold env) ∧
    ((runLoop (getFailureThreshold env) total 0 0 0 trace).failed = true →
      ∀ j, 0 < j → j < (runLoop (getFailureThreshold env) total 0 0 0 trace).processed →
        ¬ 100 * (countErrs (trace.take j) : ℚ) / (total : ℚ) ≥ getFailureThreshold env) := by
  refine ⟨getFailureThreshold_eq_spec env, fun h => getFailureThreshold_none env h, ?_, ?_⟩
  · constructor
    · intro hf
      rcases runLoop_exit_first (getFailureThreshold env) total trace 0 0 0 hnc hf with
        ⟨m, hm, hmlen, _, _, hcross, _⟩
      refine ⟨m, hm, hmlen, ?_⟩
      rw [Nat.zero_add] at hcross
      exact (failPctCond_spec _ _ _).mp hcross
    · rintro ⟨k, hk, hklen, hcross⟩
      by_contra hnf
      have hq : (runLoop (getFailureThreshold env) total 0 0 0 trace).failed = false := by
        cases hfb : (runLoop (getFailureThreshold env) total 0 0 0 trace).failed
        · rfl
        · exact absurd hfb hnf
      refine runLoop_not_failed_no_cross (getFailureThreshold env) total trace 0 0 0 hnc hq
        k hk hklen ?_
      rw [Nat.zero_add]
      exact (failPctCond_spec _ _ _).mpr hcross
  · intro hf j hj hjlt
    rcases runLoop_exit_first (getFailureThreshold env) total trace 0 0 0 hnc hf with
      ⟨m, _, _, hproc, _, _, hmin⟩
    rw [hproc, Nat.zero_add] at hjlt
    intro hcross
    refine hmin j hj hjlt ?_
    rw [Nat.zero_add]
    exact (failPctCond_spec _ _ _).mpr hcross

theorem C7_failure_threshold_loop_witness :
    getFailureThreshold ⟨some 200, none⟩ = specFailureThreshold ⟨some 200, none⟩ :=
  (C7_failure_threshold_loop ⟨some 200, none⟩ 1 [] (by simp)).1

/-- C8: when the parent job is missing from the JobStore, the queue-level
processJob acks the entry once its errorCount has reached the configured
budget (default 3 when the variable is unset) and retries it while under
budget. -/
theorem C8_parent_not_found_retry_budget (env : Env) (s : WorkerState)
    (ext : WorkerState → WorkerState) (entry : QueEntry) (args : JobEnqueueArgs)
    (u : String) (trace : List BeneStep) (ctxEnd : Bool)
    (hargs : entry.args = some args)
    (hbp : args.bbBasePath.length ≠ 0)
    (hnf : getJobByID s.repo args.id = none) :
    (env.maxJobNotFoundRetries = none → getEnvInt env.maxJobNotFoundRetries 3 = 3) ∧
    (entry.errorCount ≥ getEnvInt env.maxJobNotFoundRetries 3 →
      queProcessJob env s ext entry u trace ctxEnd = (s, .ack)) ∧
    (entry.errorCount < getEnvInt env.maxJobNotFoundRetries 3 →
      queProcessJob env s ext entry u trace ctxEnd = (s, .retry)) := by
  have hval : validateJob s.repo args = .parentNotFound := by
    simp [validateJob, hbp, hnf]
  refine ⟨?_, ?_, ?_⟩
  · intro h
    simp [getEnvInt, h]
  · intro h
    simp [queProcessJob, hargs, hval, h]
  · intro h
    simp [queProcessJob, hargs, hval, not_le.mpr h]

theorem C8_parent_not_found_retry_budget_witness :
    queProcessJob ⟨none, none⟩ ⟨⟨[], [], [], []⟩, [], []⟩ id
        ⟨some ⟨1, "c", "Patient", [], "/v1", "", 0, ⟨0, 0⟩, 0⟩, 3⟩ "u" [] false
      = (⟨⟨[], [], [], []⟩, [], []⟩, .ack) ∧
    queProcessJob ⟨none, none⟩ ⟨⟨[], [], [], []⟩, [], []⟩ id
        ⟨some ⟨1, "c", "Patient", [], "/v1", "", 0, ⟨0, 0⟩, 0⟩, 0⟩ "u" [] false
      = (⟨⟨[], [], [], []⟩, [], []⟩, .retry) :=
  ⟨(C8_parent_not_found_retry_budget ⟨none, none⟩ ⟨⟨[], [], [], []⟩, [], []⟩ id
      ⟨some ⟨1, "c", "Patient", [], "/v1", "", 0, ⟨0, 0⟩, 0⟩, 3⟩
      ⟨1, "c", "Patient", [], "/v1", "", 0, ⟨0, 0⟩, 0⟩ "u" [] false
      rfl (by decide) rfl).2.1 (by decide),
   (C8_parent_not_found_retry_budget ⟨none, none⟩ ⟨⟨[], [], [], []⟩, [], []⟩ id
      ⟨some ⟨1, "c", "Patient", [], "/v1", "", 0, ⟨0, 0⟩, 0⟩, 0⟩
      ⟨1, "c", "Patient", [], "/v1", "", 0, ⟨0, 0⟩, 0⟩ "u" [] false
      rfl (by decide) rfl).2.2 (by decide)⟩

/-- C10: with EXPORT_FAIL_PCT set to 0 (or any negative value, clamped
to 0), the threshold is 0 and any entry with a non-empty beneficiary list is
marked failed after its first beneficiary — even when that beneficiary
produced no error — because the comparison 0 ≥ 0 is evaluated after every
beneficiary; writeBBDataToFile then returns the threshold-exceeded error. -/
theorem C10_zero_threshold_first_bene (env : Env) (v : Int) (args : JobEnqueueArgs)
    (u : String) (step : BeneStep) (rest : List BeneStep) (c : ClientCall)
    (hv : env.exportFailPct = some v) (hv0 : v ≤ 0)
    (hc : step.cancelObserved = false)
    (hres : resourceBundleCall args = some c)
    (_hben : args.beneficiaryIDs.length = rest.length + 1) :
    getFailureThreshold env = 0 ∧
    (runLoop (getFailureThreshold env) args.beneficiaryIDs.length 0 0 0 (step :: rest)).failed
      = true ∧
    (runLoop (getFailureThreshold env) args.beneficiaryIDs.length 0 0 0 (step :: rest)).processed
      = 1 ∧
    writeBBDataToFile env args u (step :: rest) false =
      ⟨.thresholdExceeded, if step.isErr then 1 else 0⟩ := by
  have hθ : getFailureThreshold env = 0 := by
    rw [getFailureThreshold_some env v hv]
    by_cases h1 : v < 0
    · rw [if_pos h1]
    · have hv' : v = 0 := le_antisymm hv0 (not_lt.mp h1)
      subst hv'
      norm_num
  have hcond : failPctCond 0 args.beneficiaryIDs.length (if step.isErr then 0 + 1 else 0) := by
    unfold failPctCond
    positivity
  have hloop : runLoop (getFailureThreshold env) args.beneficiaryIDs.length 0 0 0 (step :: rest)
      = ⟨if step.isErr then 0 + 1 else 0, true, 0 + 1,
          if step.isErr then 0 else 0 + step.bytes⟩ := by
    rw [hθ]
    exact runLoop_cons_break 0 args.beneficiaryIDs.length 0 0 0 step rest hc hcond
  refine ⟨hθ, by rw [hloop], by rw [hloop], ?_⟩
  simp only [writeBBDataToFile, hres, hloop]
  by_cases hE : step.isErr <;> simp [hE]

theorem C10_zero_threshold_first_bene_witness :
    getFailureThreshold ⟨some 0, none⟩ = 0 ∧
    (runLoop (getFailureThreshold ⟨some 0, none⟩) 1 0 0 0 [⟨false, false, 4⟩]).failed = true ∧
    (runLoop (getFailureThreshold ⟨some 0, none⟩) 1 0 0 0 [⟨false, false, 4⟩]).processed = 1 ∧
    writeBBDataToFile ⟨some 0, none⟩ ⟨1, "c", "Patient", ["8"], "/v1", "", 0, ⟨0, 0⟩, 0⟩
        "u" [⟨false, false, 4⟩] false = ⟨.thresholdExceeded, 0⟩ := by
  have h := C10_zero_threshold_first_bene ⟨some 0, none⟩ 0
    ⟨1, "c", "Patient", ["8"], "/v1", "", 0, ⟨0, 0⟩, 0⟩ "u" ⟨false, false, 4⟩ [] .getPatient
    rfl le_rfl rfl (by decide) rfl
  simpa using h

theorem find_update (jobs : List Job) (id : Nat) (st : JobStatus) (j : Job)
    (hj : jobs.find? (fun x => x.id == id) = some j) :
    (jobs.map (fun x => if x.id == id then { x with status := st } else x)).find?
        (fun x => x.id == id) = some { j with status := st } := by
  induction jobs with
  | nil => simp at hj
  | cons a l ih =>
    by_cases ha : (a.id == id) = true
    · have hj' : a = j := by
        simp [List.find?, ha] at hj
        exact hj
      subst hj'
      simp [List.find?, List.map_cons, ha]
    · have hj' : l.find? (fun x => x.id == id) = some j := by
        simpa [List.find?, ha] using hj
      simpa [List.find?, List.map_cons, ha] using ih hj'

theorem getJobByID_updateJobStatus (r : RepoState) (id : Nat) (st : JobStatus) (j : Job)
    (hj : getJobByID r id = some j) :
    getJobByID (updateJobStatus r id st) id = some { j with status := st } :=
  find_update r.jobs id st j hj

/-- A conditional status update whose expected status matches the stored job
succeeds and performs the update. -/
theorem updateJobStatusCheckStatus_eq (r : RepoState) (id : Nat)
    (expected newStatus : JobStatus) (j : Job)
    (hj : getJobByID r id = some j) (hst : j.status = expected) :
    updateJobStatusCheckStatus r id expected newStatus
      = (updateJobStatus r id newStatus, true) := by
  unfold updateJobStatusCheckStatus
  rw [hj]
  simp [hst]

theorem incrementCompletedJobCount_jobs (r : RepoState) (id : Nat) :
    (incrementCompletedJobCount r id).jobs = r.jobs := by
  unfold incrementCompletedJobCount
  split <;> rfl

/-- The completion check on a terminal parent mutates nothing, so the tail
of ProcessJob returns no error and leaves the job list unchanged. -/
theorem finishProcessJob_terminal (s : WorkerState) (job : Job) (j' : Job)
    (hj : getJobByID s.repo job.id = some j')
    (hterm : j'.status = .Cancelled ∨ j'.status = .Failed ∨ j'.status = .Completed) :
    (finishProcessJob s job).2 = none ∧
    (finishProcessJob s job).1.repo.jobs = s.repo.jobs := by
  have hc : checkJobCompleteAndCleanup s job.id = ((none, true), s) := by
    rcases hterm with h | h | h <;> simp [checkJobCompleteAndCleanup, hj, h]
  unfold finishProcessJob
  rw [hc]
  exact ⟨rfl, incrementCompletedJobCount_jobs s.repo job.id⟩

/-- When the parent is stored as Pending and the fetch step fails on the
threshold, ProcessJob promotes it to InProgress, the conditional
InProgress to Failed update succeeds, the reassigned `err` is nil, and
processing continues to completion: the entry returns no error and the
parent ends Failed. -/
theorem processJob_threshold_marks_failed (env : Env) (s : WorkerState) (job : Job)
    (args : JobEnqueueArgs) (u : String) (trace : List BeneStep) (ctxEnd : Bool) (aco : ACO)
    (haco : getACOByUUID s.repo job.acoID = some aco)
    (hj : getJobByID s.repo job.id = some job)
    (hst : job.status = .Pending)
    (hw : (writeBBDataToFile env args u trace ctxEnd).result = .thresholdExceeded) :
    (processJob env s job args u trace ctxEnd).2 = none ∧
    getJobByID (processJob env s job args u trace ctxEnd).1.repo job.id
      = some { job with status := .Failed } := by
  have hcas1 := updateJobStatusCheckStatus_eq s.repo job.id .Pending .InProgress job hj hst
  have hj1 : getJobByID (updateJobStatus s.repo job.id .InProgress) job.id
      = some { job with status := .InProgress } :=
    getJobByID_updateJobStatus s.repo job.id .InProgress job hj
  have hcas2 := updateJobStatusCheckStatus_eq (updateJobStatus s.repo job.id .InProgress)
    job.id .InProgress .Failed { job with status := .InProgress } hj1 rfl
  have hj2 : getJobByID (updateJobStatus (updateJobStatus s.repo job.id .InProgress)
      job.id .Failed) job.id = some { job with status := .Failed } := by
    simpa using getJobByID_updateJobStatus (updateJobStatus s.repo job.id .InProgress)
      job.id .Failed { job with status := .InProgress } hj1
  unfold processJob
  rw [haco]
  dsimp only
  rw [hw, hcas1]
  dsimp only
  rw [hcas2]
  dsimp only
  have hfin := finishProcessJob_terminal
    ⟨updateJobStatus (updateJobStatus s.repo job.id .InProgress) job.id .Failed,
      if (resourceBundleCall args).isSome then
        addFile (ensureDir s.staging args.id) args.id (u ++ ".ndjson")
      else ensureDir s.staging args.id,
      ensureDir s.payload args.id⟩ job { job with status := .Failed } hj2 (Or.inr (Or.inl rfl))
  refine ⟨hfin.1, ?_⟩
  have : getJobByID (finishProcessJob
      ⟨updateJobStatus (updateJobStatus s.repo job.id .InProgress) job.id .Failed,
        if (resourceBundleCall args).isSome then
          addFile (ensureDir s.staging args.id) args.id (u ++ ".ndjson")
        else ensureDir s.staging args.id,
        ensureDir s.payload args.id⟩ job).1.repo job.id
      = some { job with status := .Failed } := by
    unfold getJobByID
    rw [hfin.2]
    exact hj2
  exact this

/-- C1 (amended): when the cancellation signal's cause is observed at
validation (parent already Cancelled), the entry acks with no state change
and hence no JobKey; when the signal fires while the entry is mid-flight and
the beneficiary loop observes it, that delivery of the entry returns Retry
(ProcessJob surfaces the rejected conditional update), and no JobKey is
created for it. -/
theorem C1_cancel_signal_outcome (env : Env) (s : WorkerState)
    (ext : WorkerState → WorkerState) (entry : QueEntry) (args : JobEnqueueArgs)
    (j : Job) (u : String) (trace : List BeneStep) (ctxEnd : Bool)
    (hargs : entry.args = some args) :
    (validateJob s.repo args = .parentCancelled →
      queProcessJob env s ext entry u trace ctxEnd = (s, .ack)) ∧
    (validateJob s.repo args = .valid j →
      (∃ st ∈ trace, st.cancelObserved = true) →
      (∃ j', getJobByID (ext s).repo j.id = some j' ∧ j'.status = .Cancelled) →
      (queProcessJob env s ext entry u trace ctxEnd).2 = .retry ∧
      (queProcessJob env s ext entry u trace ctxEnd).1.repo.jobKeys =
        (ext s).repo.jobKeys) := by
  constructor
  · intro hval
    simp [queProcessJob, hargs, hval]
  · intro hval hcan hj'
    rcases hj' with ⟨j', hj, hst⟩
    have hp := processJob_cancelled_parent env (ext s) j args u trace ctxEnd j' hj hst hcan
    rcases hq : processJob env (ext s) j args u trace ctxEnd with ⟨s1, oe⟩
    rw [hq] at hp
    have hoe : ∃ e, oe = some e := by
      rcases hp.1 with h | h
      · exact ⟨_, h⟩
      · exact ⟨_, h⟩
    rcases hoe with ⟨e, rfl⟩
    constructor
    · simp [queProcessJob, hargs, hval, hq]
    · simpa [queProcessJob, hargs, hval, hq] using hp.2

theorem C1_cancel_signal_outcome_witness :
    (queProcessJob ⟨some 50, none⟩ C1state C1cancel ⟨some C1args, 0⟩ "u" C1trace true).2
      = .retry ∧
    (queProcessJob ⟨some 50, none⟩ C1state C1cancel ⟨some C1args, 0⟩ "u" C1trace true).1.repo.jobKeys
      = (C1cancel C1state).repo.jobKeys :=
  (C1_cancel_signal_outcome ⟨some 50, none⟩ C1state C1cancel ⟨some C1args, 0⟩ C1args
      C1job "u" C1trace true rfl).2 (by decide) (by decide)
    ⟨⟨1, "aco-1", .Cancelled, 1⟩, by decide, rfl⟩

/-- C1 (counterexample): with the parent cancelled mid-flight and the
cancellation signal observed by the beneficiary loop, the delivery returns
Retry, not Ack, contradicting the claim that a signalled entry always
acks. -/
theorem C1_counterexample :
    (∃ st ∈ C1trace, st.cancelObserved = true) ∧
    (queProcessJob ⟨some 50, none⟩ C1state C1cancel ⟨some C1args, 0⟩ "u" C1trace true).2
      = .retry ∧
    QueOutcome.retry ≠ QueOutcome.ack := by
  decide

/-- C2 (amended): re-delivery of an entry after a crash between the JobKey
insert and the acknowledgement reprocesses the entry from scratch: whenever
the ACO resolves and the fetch step succeeds, another JobKey for the parent
is appended unconditionally — no existing-key check occurs, and the insert
is not rejected. -/
theorem C2_redelivery_inserts_again (env : Env) (s : WorkerState) (job : Job)
    (args : JobEnqueueArgs) (u : String) (trace : List BeneStep) (ctxEnd : Bool)
    (aco : ACO) (sz ec : Nat)
    (haco : getACOByUUID s.repo job.acoID = some aco)
    (hw : writeBBDataToFile env args u trace ctxEnd = ⟨.ok u sz, ec⟩) :
    (processJob env s job args u trace ctxEnd).1.repo.jobKeys =
      s.repo.jobKeys ++
        [⟨job.id, if sz == 0 then blankFileName else u ++ ".ndjson", args.resourceType⟩] := by
  unfold processJob
  rw [haco, hw]
  simp [finishProcessJob_jobKeys, createJobKey, updateJobStatusCheckStatus_jobKeys]

theorem C2_redelivery_inserts_again_witness :
    (processJob ⟨some 50, none⟩ C2run1.1 ⟨1, "aco-2", .Completed, 1⟩ C2args "u2" []
        false).1.repo.jobKeys
      = C2run1.1.repo.jobKeys ++ [⟨1, blankFileName, "Patient"⟩] := by
  have h := C2_redelivery_inserts_again ⟨some 50, none⟩ C2run1.1 ⟨1, "aco-2", .Completed, 1⟩
    C2args "u2" [] false ⟨"aco-2", "A0002"⟩ 0 0 (by decide) rfl
  simpa [C2args] using h

/-- C2 (counterexample): a blank-output entry re-delivered after a crash
between insert and ack leaves two JobKeys with the identical
(parentJobId, fileName) pair — the second insert is neither rejected nor
skipped, contradicting the claim. -/
theorem C2_counterexample :
    C2run1.1.repo.jobKeys = [⟨1, blankFileName, "Patient"⟩] ∧
    C2run2.1.repo.jobKeys = [⟨1, blankFileName, "Patient"⟩, ⟨1, blankFileName, "Patient"⟩] ∧
    C2run2.2 = .ack := by
  decide

/-- C3 (amended): when the fetch-and-stream step fails and the conditional
InProgress to Failed update is rejected because the parent is already
terminal, ProcessJob returns the rejection error (ErrJobNotUpdated) to its
caller — a non-nil error, but not the original fetch/stream error, which is
discarded by the reassignment of `err`. -/
theorem C3_update_rejected_error_swapped (env : Env) (s : WorkerState) (job : Job)
    (args : JobEnqueueArgs) (u : String) (trace : List BeneStep) (ctxEnd : Bool)
    (aco : ACO) (j' : Job)
    (haco : getACOByUUID s.repo job.acoID = some aco)
    (hj : getJobByID s.repo job.id = some j')
    (hterm : j'.status = .Cancelled ∨ j'.status = .Completed ∨ j'.status = .Failed)
    (hwf : writeError (writeBBDataToFile env args u trace ctxEnd).result ≠ none) :
    (processJob env s job args u trace ctxEnd).2 = some .jobNotUpdated ∧
    (∀ e, writeError (writeBBDataToFile env args u trace ctxEnd).result = some e →
      WError.jobNotUpdated ≠ e) := by
  refine ⟨processJob_reject_returns_jobNotUpdated env s job args u trace ctxEnd aco j'
    haco hj hterm hwf, ?_⟩
  intro e he
  cases hr : (writeBBDataToFile env args u trace ctxEnd).result with
  | ok u1 size =>
    rw [hr] at he
    exact absurd he (by simp [writeError])
  | cancelledParent =>
    rw [hr] at he
    simp only [writeError, Option.some.injEq] at he
    subst he
    exact fun hh => WError.noConfusion hh
  | thresholdExceeded =>
    rw [hr] at he
    simp only [writeError, Option.some.injEq] at he
    subst he
    exact fun hh => WError.noConfusion hh
  | unsupportedResource =>
    rw [hr] at he
    simp only [writeError, Option.some.injEq] at he
    subst he
    exact fun hh => WError.noConfusion hh

/-- Evaluation of the write step in the C3 scenario: the single erroring
beneficiary reaches the 50 percent threshold and the write fails with the
threshold-exceeded error. -/
theorem C3_write_eval :
    writeBBDataToFile ⟨some 50, none⟩ C3args "u" C3trace false = ⟨.thresholdExceeded, 1⟩ := by
  have hrc : resourceBundleCall C3args = some .getPatient := rfl
  have hθ : getFailureThreshold ⟨some 50, none⟩ = 50 := rfl
  have hlen : C3args.beneficiaryIDs.length = 1 := rfl
  have hloop : runLoop 50 1 0 0 0 C3trace = ⟨1, true, 1, 0⟩ := by
    norm_num [runLoop, C3trace, failPctCond]
  unfold writeBBDataToFile
  rw [hrc]
  dsimp only
  rw [hθ, hlen, hloop]
  rfl

theorem C3_update_rejected_error_swapped_witness :
    (processJob ⟨some 50, none⟩ C3state C3job C3args "u" C3trace false).2
      = some .jobNotUpdated ∧
    WError.jobNotUpdated ≠ WError.thresholdExceeded := by
  have h := C3_update_rejected_error_swapped ⟨some 50, none⟩ C3state C3job C3args "u"
    C3trace false ⟨"aco-3", "A0003"⟩ C3job rfl rfl (Or.inl rfl)
    (by rw [C3_write_eval]; simp [writeError])
  exact ⟨h.1, h.2 .thresholdExceeded (by rw [C3_write_eval]; rfl)⟩

/-- C3 (counterexample): the fetch step fails with the threshold-exceeded
error, the conditional update is rejected (parent Cancelled), and ProcessJob
returns the rejection error rather than the original threshold-exceeded
error. -/
theorem C3_counterexample :
    (writeBBDataToFile ⟨some 50, none⟩ C3args "u" C3trace false).result
      = .thresholdExceeded ∧
    (processJob ⟨some 50, none⟩ C3state C3job C3args "u" C3trace false).2
      = some .jobNotUpdated ∧
    some WError.jobNotUpdated ≠ some WError.thresholdExceeded := by
  refine ⟨by rw [C3_write_eval], ?_, by decide⟩
  exact processJob_reject_returns_jobNotUpdated ⟨some 50, none⟩ C3state C3job C3args "u"
    C3trace false ⟨"aco-3", "A0003"⟩ C3job rfl rfl (Or.inl rfl)
    (by rw [C3_write_eval]; simp [writeError])

/-- Evaluation of the C4 beneficiary loop: with threshold 50 over 10
beneficiaries, the loop breaks when the 5th error is counted, with 5
beneficiaries processed. -/
theorem C4_loop_eval : runLoop 50 10 0 0 0 C4trace = ⟨5, true, 5, 0⟩ := by
  norm_num [runLoop, C4trace, List.replicate, failPctCond]

/-- Evaluation of the C4 write step: the entry fails with the
threshold-exceeded error and exactly 5 OperationOutcome lines in the error
artifact. -/
theorem C4_write_eval :
    writeBBDataToFile ⟨some 50, none⟩ C4args "u" C4trace false
      = ⟨.thresholdExceeded, 5⟩ := by
  have hrc : resourceBundleCall C4args = some .getPatient := rfl
  have hθ : getFailureThreshold ⟨some 50, none⟩ = 50 := rfl
  have hlen : C4args.beneficiaryIDs.length = 10 := rfl
  unfold writeBBDataToFile
  rw [hrc]
  dsimp only
  rw [hθ, hlen, C4_loop_eval]
  rfl

/-- C4 (amended): with 10 beneficiaries, EXPORT_FAIL_PCT=50 and the
upstream erroring on 6 of them, the entry fails when the 5th error is
counted (5/10 = 50 percent reaches the threshold, so the 6th erroring
beneficiary is never processed); the parent conditionally transitions
InProgress to Failed; the error artifact holds exactly 5 (hence at least 5)
OperationOutcome lines. -/
theorem C4_threshold_scenario :
    writeBBDataToFile ⟨some 50, none⟩ C4args "u" C4trace false
      = ⟨.thresholdExceeded, 5⟩ ∧
    (writeBBDataToFile ⟨some 50, none⟩ C4args "u" C4trace false).errorLines ≥ 5 ∧
    (processJob ⟨some 50, none⟩ C4state C4job C4args "u" C4trace false).2 = none ∧
    getJobByID (processJob ⟨some 50, none⟩ C4state C4job C4args "u" C4trace false).1.repo 1
      = some ⟨1, "aco-4", .Failed, 1⟩ := by
  have h := processJob_threshold_marks_failed ⟨some 50, none⟩ C4state C4job C4args "u"
    C4trace false ⟨"aco-4", "A0004"⟩ rfl rfl rfl (by rw [C4_write_eval])
  exact ⟨C4_write_eval, by rw [C4_write_eval], h.1, h.2⟩

/-- C4 (counterexample): the loop exits with errorCount 5 after processing
exactly 5 beneficiaries — the entry fails on the 5th error, not the 6th as
the claim states, and the 6th erroring beneficiary is never reached. -/
theorem C4_counterexample :
    runLoop 50 10 0 0 0 C4trace = ⟨5, true, 5, 0⟩ ∧
    (runLoop 50 10 0 0 0 C4trace).errorCount ≠ 6 ∧
    (runLoop 50 10 0 0 0 C4trace).processed = 5 := by
  refine ⟨C4_loop_eval, ?_, ?_⟩
  · rw [C4_loop_eval]
    decide
  · rw [C4_loop_eval]

/-- C9: a successful fetch that wrote zero bytes (here: no beneficiaries,
so the upstream client is never called) inserts the sentinel blank.ndjson
JobKey, the entry succeeds, and with jobCount 1 the parent proceeds to
Completed once the JobKey count reaches jobCount. -/
theorem C9_blank_sentinel (env : Env) (jobId : Nat) (acoUUID cmsId u : String)
    (args : JobEnqueueArgs) (c : ClientCall) (cc : List (Nat × Nat))
    (hres : resourceBundleCall args = some c)
    (_hben : args.beneficiaryIDs = [])
    (hid : args.id = jobId) :
    writeBBDataToFile env args u [] false = ⟨.ok u 0, 0⟩ ∧
    (processJob env ⟨⟨[⟨jobId, acoUUID, .Pending, 1⟩], [], [⟨acoUUID, cmsId⟩], cc⟩, [], []⟩
        ⟨jobId, acoUUID, .Pending, 1⟩ args u [] false).2 = none ∧
    (processJob env ⟨⟨[⟨jobId, acoUUID, .Pending, 1⟩], [], [⟨acoUUID, cmsId⟩], cc⟩, [], []⟩
        ⟨jobId, acoUUID, .Pending, 1⟩ args u [] false).1.repo.jobKeys =
      [⟨jobId, blankFileName, args.resourceType⟩] ∧
    getJobByID (processJob env ⟨⟨[⟨jobId, acoUUID, .Pending, 1⟩], [], [⟨acoUUID, cmsId⟩], cc⟩,
        [], []⟩ ⟨jobId, acoUUID, .Pending, 1⟩ args u [] false).1.repo jobId =
      some ⟨jobId, acoUUID, .Completed, 1⟩ := by
  subst hid
  have hw : writeBBDataToFile env args u [] false = ⟨.ok u 0, 0⟩ := by
    unfold writeBBDataToFile
    rw [hres]
    rfl
  refine ⟨hw, ?_⟩
  unfold processJob
  rw [hw]
  simp [getACOByUUID, getJobByID, updateJobStatusCheckStatus, updateJobStatus,
    createJobKey, getJobKeyCount, finishProcessJob, checkJobCompleteAndCleanup,
    incrementCompletedJobCount, ensureDir, addFile, addFiles, removeDir, lookupDir,
    List.find?, hres, blankFileName]
  constructor
  · split <;> rfl
  · split <;> simp [List.find?]

theorem C9_blank_sentinel_witness :
    writeBBDataToFile ⟨some 50, none⟩ C9args "u" [] false = ⟨.ok "u" 0, 0⟩ ∧
    (processJob ⟨some 50, none⟩ ⟨⟨[⟨1, "a", .Pending, 1⟩], [], [⟨"a", "c"⟩], []⟩, [], []⟩
        ⟨1, "a", .Pending, 1⟩ C9args "u" [] false).2 = none ∧
    (processJob ⟨some 50, none⟩ ⟨⟨[⟨1, "a", .Pending, 1⟩], [], [⟨"a", "c"⟩], []⟩, [], []⟩
        ⟨1, "a", .Pending, 1⟩ C9args "u" [] false).1.repo.jobKeys =
      [⟨1, blankFileName, C9args.resourceType⟩] ∧
    getJobByID (processJob ⟨some 50, none⟩ ⟨⟨[⟨1, "a", .Pending, 1⟩], [], [⟨"a", "c"⟩], []⟩,
        [], []⟩ ⟨1, "a", .Pending, 1⟩ C9args "u" [] false).1.repo 1 =
      some ⟨1, "a", .Completed, 1⟩ :=
  C9_blank_sentinel ⟨some 50, none⟩ 1 "a" "c" "u" C9args .getPatient [] rfl rfl rfl

end BCDA
